import Mathlib

/-!
Verification development for the tool-calling agent in `agentic-ai`
(`main.py` / `utils.py`): a shallow embedding of the tool registry,
the execution phase of `AgentExecutor.run`, `AgentExecutor._execute_tool`
and `AgentExecutor._finalize_response`, together with theorems about
error handling, ordering and the synthesis input.
-/

set_option autoImplicit false

namespace Agent

/-- JSON values, as produced by `json.loads` on the model output and handed
to the tools as parameter values. Numbers are modelled as integers; no
claim depends on numeric rendering. -/
inductive Json where
  | null
  | bool (b : Bool)
  | num (n : Int)
  | str (s : String)
  | arr (items : List Json)
  | obj (fields : List (String × Json))
  deriving Repr

/-- Lookup of a key in a JSON object / Python dict (`d.get(k)` and `d[k]`
both start from this; association lists here carry no duplicate keys). -/
def dictGet {α : Type} (k : String) : List (String × α) → Option α
  | [] => none
  | (k2, v) :: rest => if k2 = k then some v else dictGet k rest

/-- Python dict assignment `d[k] = v`: overwrite in place when the key is
present, append otherwise (insertion order preserved, last write wins). -/
def dictSet {α : Type} (k : String) (v : α) : List (String × α) → List (String × α)
  | [] => [(k, v)]
  | (k2, v2) :: rest => if k2 = k then (k, v) :: rest else (k2, v2) :: dictSet k v rest

/-- Minimal JSON string escaping, as `json.dumps` applies to string values. -/
def escapeChar (c : Char) : String :=
  if c = '\"' then "\\\""
  else if c = '\\' then "\\\\"
  else if c = '\n' then "\\n"
  else if c = '\t' then "\\t"
  else if c = '\r' then "\\r"
  else String.singleton c

/-- Escape every character of a string for JSON output. -/
def escapeString (s : String) : String :=
  String.join (s.toList.map escapeChar)

mutual

/-- `json.dumps` with the default separators: renders a JSON value to text. -/
def dumps : Json → String
  | .null => "null"
  | .bool true => "true"
  | .bool false => "false"
  | .num n => toString n
  | .str s => "\"" ++ escapeString s ++ "\""
  | .arr xs => "[" ++ dumpsArr xs ++ "]"
  | .obj fs => "\x7b" ++ dumpsObj fs ++ "\x7d"

/-- Comma-joined rendering of JSON array elements. -/
def dumpsArr : List Json → String
  | [] => ""
  | [x] => dumps x
  | x :: y :: xs => dumps x ++ ", " ++ dumpsArr (y :: xs)

/-- Comma-joined rendering of JSON object fields. -/
def dumpsObj : List (String × Json) → String
  | [] => ""
  | [(k, v)] => "\"" ++ escapeString k ++ "\": " ++ dumps v
  | (k, v) :: f :: fs => "\"" ++ escapeString k ++ "\": " ++ dumps v ++ ", " ++ dumpsObj (f :: fs)

end

/-- Conversation messages (`SystemMessage` / `UserMessage` / `AssistantMessage`). -/
inductive Message where
  | system (content : String)
  | user (content : String)
  | assistant (content : String)
  deriving DecidableEq, Repr

/-- The uncaught Python exceptions the orchestration code can raise. -/
inductive PyError where
  | jsonDecodeError
  | keyError (key : String)
  | attributeError
  | typeError
  deriving DecidableEq, Repr

/-- A Python value stored under the `"function"` key of a registry entry:
either genuinely callable (`callable(v)` is true) — modelled as a function
from keyword arguments to a result or a raised exception message — or any
non-callable value. -/
inductive PyVal where
  | callable (f : List (String × Json) → Except String Json)
  | value (j : Json)

/-- The truth value of Python's `callable()` on a stored value. -/
def PyVal.isCallable : PyVal → Bool
  | .callable _ => true
  | .value _ => false

/-- One registry entry: the dict
`{"function": ..., "description": ..., "parameters": ...}`
built by `ToolRegistry.register`. -/
structure ToolEntry where
  function : PyVal
  description : String
  parameters : List (String × String)

/-- `ToolRegistry`: `self.tools` maps tool names to entries. -/
structure ToolRegistry where
  tools : List (String × ToolEntry)

/-- `ToolRegistry.__init__`: starts with an empty dict. -/
def ToolRegistry.init : ToolRegistry := ⟨[]⟩

/-- `ToolRegistry.register(name, function, description, parameters)`:
inserts or overwrites the entry under `name`. -/
def ToolRegistry.register (reg : ToolRegistry) (name : String) (f : PyVal)
    (description : String) (parameters : List (String × String)) : ToolRegistry :=
  ⟨dictSet name ⟨f, description, parameters⟩ reg.tools⟩

/-- The name/description/parameters view returned for the prompt:
everything of an entry except the callable. -/
structure DescEntry where
  description : String
  parameters : List (String × String)
  deriving DecidableEq, Repr

/-- `ToolRegistry.get_description_for_prompt()`: for every registered name,
its description and parameter spec, with the callable excluded. -/
def ToolRegistry.getDescriptionForPrompt (reg : ToolRegistry) : List (String × DescEntry) :=
  reg.tools.map fun p => (p.1, ⟨p.2.description, p.2.parameters⟩)

/-- `ToolRegistry.get_callable(name)`:
`self.tools.get(name, {}).get("function")` — the stored `"function"` value,
or `None` (here `none`) when the name is unregistered. -/
def ToolRegistry.getCallable (reg : ToolRegistry) (name : String) : Option PyVal :=
  (dictGet name reg.tools).map ToolEntry.function

/-- One parsed entry of the `tool_calls` array, viewed as a Python dict in
which each schema key may be present or absent. Per the declared response
schema, `decision`, `reason` and `function` carry strings and `parameters`
an object. -/
structure Decision where
  decision : Option String
  reason : Option String
  function : Option String
  parameters : Option (List (String × Json))

/-- The JSON object a decision dict serializes to (`json.dumps(decision)`),
with present keys in schema order. -/
def Decision.toJson (d : Decision) : Json :=
  .obj ((d.decision.map fun s => ("decision", Json.str s)).toList ++
        (d.reason.map fun s => ("reason", Json.str s)).toList ++
        (d.function.map fun s => ("function", Json.str s)).toList ++
        (d.parameters.map fun p => ("parameters", Json.obj p)).toList)

/-- The serialized form of a decision, as appended to the conversation. -/
def dumpDecision (d : Decision) : String := dumps d.toJson

/-- A record of one actual callable invocation: the tool name and the
keyword arguments it was called with. -/
abbrev ToolCall := String × List (String × Json)

/-- `AgentExecutor._execute_tool(decision)`.
`decision["function"]` raises `KeyError` when absent (this access is outside
the `try`); `decision.get("parameters", {})` defaults to an empty dict; the
looked-up value is invoked only when `callable`, with exceptions converted
to `"Error: <message>"`; otherwise the result is
`"Function '<name>' not found."`. The returned list records the callable
invocations actually performed. -/
def executeTool (reg : ToolRegistry) (d : Decision) : Except PyError (Json × List ToolCall) :=
  match d.function with
  | none => .error (.keyError "function")
  | some fname =>
    let args := d.parameters.getD []
    match reg.getCallable fname with
    | some (.callable f) =>
      match f args with
      | .ok r => .ok (r, [(fname, args)])
      | .error m => .ok (.str ("Error: " ++ m), [(fname, args)])
    | _ => .ok (.str ("Function \x27" ++ fname ++ "\x27 not found."), [])

/-- The state accumulated by the execution loop of `AgentExecutor.run`:
the `tool_results` list, the messages appended to the conversation, and the
trace of callable invocations performed. -/
abbrev ExecState := List (String × Json) × List Message × List ToolCall

/-- One iteration of the loop in `AgentExecutor.run` for a decision whose
serialized form is `ser`, sequenced before the continuation `k` (the
processing of the remaining decisions). A `"tool"` decision runs
`_execute_tool`, records `(decision["function"], result)` and appends one
assistant message; any other decision only appends one assistant message. -/
def execStep (reg : ToolRegistry) (d : Decision) (ser : String)
    (k : Except PyError ExecState) : Except PyError ExecState :=
  if d.decision = some "tool" then
    match executeTool reg d with
    | .error e => .error e
    | .ok (r, cs) =>
      match d.function with
      | none => .error (.keyError "function")
      | some fname =>
        match k with
        | .error e => .error e
        | .ok (trs, msgs, calls) => .ok ((fname, r) :: trs, Message.assistant ser :: msgs, cs ++ calls)
  else
    match k with
    | .error e => .error e
    | .ok (trs, msgs, calls) => .ok (trs, Message.assistant ser :: msgs, calls)

/-- The execution-phase loop of `AgentExecutor.run` over the parsed
decisions, in array order, strictly sequentially. -/
def execDecisions (reg : ToolRegistry) : List Decision → Except PyError ExecState
  | [] => .ok ([], [], [])
  | d :: rest => execStep reg d (dumpDecision d) (execDecisions reg rest)

/-- The value iterated by `for decision in decisions_json.get("tool_calls", [])`
when `decisions_json` is a dict: the `tool_calls` value, defaulting to an
empty list when the key is absent. A non-dict parse result has no `.get`
and raises `AttributeError`. -/
def getToolCalls : Json → Except PyError Json
  | .obj fields => .ok ((dictGet "tool_calls" fields).getD (.arr []))
  | _ => .error .attributeError

/-- The items Python iteration yields for the `tool_calls` value: array
elements, a dict's keys (as strings), a string's characters; iterating any
other value raises `TypeError`. -/
def iterToolCalls : Json → Except PyError (List Json)
  | .arr items => .ok items
  | .obj fs => .ok (fs.map fun p => .str p.1)
  | .str s => .ok (s.toList.map fun c => .str (String.singleton c))
  | _ => .error .typeError

/-- The string value of a dict key, when present with a string value
(the shapes the declared response schema allows for `decision`, `reason`
and `function`). -/
def strField (k : String) (fs : List (String × Json)) : Option String :=
  match dictGet k fs with
  | some (.str s) => some s
  | _ => none

/-- The object value of a dict key, when present with an object value
(the shape the declared response schema allows for `parameters`). -/
def objField (k : String) (fs : List (String × Json)) : Option (List (String × Json)) :=
  match dictGet k fs with
  | some (.obj o) => some o
  | _ => none

/-- View of one iterated item as a decision dict. A non-dict item raises
`AttributeError` at its first `.get`. Field values outside the declared
schema types (a non-string `function`, a non-object `parameters`) are not
modelled and read as absent. -/
def decisionOfItem : Json → Except PyError Decision
  | .obj fs => .ok ⟨strField "decision" fs, strField "reason" fs, strField "function" fs, objField "parameters" fs⟩
  | _ => .error .attributeError

/-- The execution-phase loop of `AgentExecutor.run` over the raw iterated
items, each viewed as a decision dict when processed and serialized from
its original JSON form (`json.dumps(decision)`). -/
def execItems (reg : ToolRegistry) : List Json → Except PyError ExecState
  | [] => .ok ([], [], [])
  | item :: rest =>
    match decisionOfItem item with
    | .error e => .error e
    | .ok d => execStep reg d (dumps item) (execItems reg rest)

/-- The system instruction `_finalize_response` appends before synthesis. -/
def synthesisInstruction : String :=
  " \nYou now have access to the results provided by the tools. When the results are clear and complete, use only that information to answer the user\x27s \nquestion in a natural, helpful, and concise manner. However, if any result appears vague, incomplete, or states uncertainty (e.g., \"I don\x27t know\"), \nrely on your own knowledge to deliver an accurate and informative response.\nAlways avoid requesting information already provided. Focus on clarity, relevance, and user value.\n\n"

/-- The newline-joined per-tool summary built in `_finalize_response`:
one line per collected `(name, result)` pair, in execution order, pairing
the tool name with the JSON-serialized result. -/
def toolSummary (trs : List (String × Json)) : String :=
  String.intercalate "\n" (trs.map fun p => "- Tool `" ++ p.1 ++ "` returned: " ++ dumps p.2)

/-- `AgentExecutor._finalize_response`: the message sequence sent to the
model for synthesis — the running conversation followed by the synthesis
instruction, the original user query and the tool-results summary. -/
def synthesisInput (q : String) (trs : List (String × Json)) (msgs : List Message) : List Message :=
  msgs ++ [Message.system synthesisInstruction,
           Message.user ("User question: " ++ q),
           Message.user ("Tool Results:\n" ++ toolSummary trs)]

/-- `AgentExecutor.run` from the Decision Phase response onward, for a
model output `output` (`none` when the returned text is not valid JSON, in
which case `json.loads` raises). `pre` is the `[system instruction, user
prompt]` prefix of the conversation built before the decision call. On
success the result is the message sequence handed to the Synthesis Phase. -/
def runFromOutput (reg : ToolRegistry) (pre : List Message) (q : String)
    (output : Option Json) : Except PyError (List Message) :=
  match output with
  | none => .error .jsonDecodeError
  | some j =>
    match getToolCalls j with
    | .error e => .error e
    | .ok tc =>
      match iterToolCalls tc with
      | .error e => .error e
      | .ok items =>
        match execItems reg items with
        | .error e => .error e
        | .ok (trs, msgs, _) => .ok (synthesisInput q trs (pre ++ msgs))

/-- Spec-level description of the collected results, written from the
spec's words for comparison with the loop: the collected `(name, result)`
pairs are exactly the decisions with `decision == "tool"`, in array order,
each paired with the result `_execute_tool` produces for it. -/
def specToolPairs (reg : ToolRegistry) (ds : List Decision) : List (String × Json) :=
  (ds.filter fun d => d.decision = some "tool").map fun d =>
    (d.function.getD "",
     match executeTool reg d with
     | .ok (r, _) => r
     | .error _ => .null)

/-- Spec-level description of the invocation trace, written from the
spec's words: the callable invocations are those performed for the
`decision == "tool"` entries, in array order, with no reordering. -/
def specToolCalls (reg : ToolRegistry) (ds : List Decision) : List ToolCall :=
  ((ds.filter fun d => d.decision = some "tool").map fun d =>
     match executeTool reg d with
     | .ok (_, cs) => cs
     | .error _ => []).flatten

/-- A registered callable that always succeeds with the string `"ok"`. -/
def okTool : PyVal := .callable fun _ => .ok (.str "ok")

/-- A registered callable that always raises with message `"boom"`. -/
def boomTool : PyVal := .callable fun _ => .error "boom"

/-- A concrete registry for evaluating the theorems: a succeeding tool, a
raising tool, and a name registered to a non-callable value. -/
def regW : ToolRegistry :=
  ((ToolRegistry.init.register "good" okTool "A tool that succeeds." []).register
      "bad" boomTool "A tool that raises." [("x", "int - an argument.")]).register
    "data" (.value (.str "not a function")) "A non-callable entry." []

/-- A decision invoking the succeeding tool. -/
def dGood : Decision := ⟨some "tool", some "use good", some "good", some []⟩

/-- A decision invoking the raising tool. -/
def dBoom : Decision := ⟨some "tool", some "use bad", some "bad", some [("x", .num 1)]⟩

/-- A decision declining to use any tool. -/
def dNoTool : Decision := ⟨some "no_tool", some "nothing fits", some "", some []⟩

/-- A tool decision naming an unregistered function. -/
def dMissing : Decision := ⟨some "tool", some "hallucinated", some "absent", some []⟩

/-- A tool decision naming the registered non-callable entry. -/
def dData : Decision := ⟨some "tool", some "not callable", some "data", some []⟩

/-- A tool decision whose dict has no `"function"` key. -/
def dNoFunction : Decision := ⟨some "tool", some "broken", none, some []⟩

/-- A tool decision for the succeeding tool with no `"parameters"` key. -/
def dNoParams : Decision := ⟨some "tool", some "default args", some "good", none⟩

/-- C1: for every decision with `decision == "tool"` whose function name is
not registered, `_execute_tool` returns `"Function '<name>' not found."`
without raising, and the loop continues with the remaining decisions (the
run reaches the Synthesis Phase exactly when the rest does). -/
theorem claim_C1_unregistered_not_found (reg : ToolRegistry) (d : Decision)
    (rest : List Decision) (n : String) (h1 : d.decision = some "tool")
    (h2 : d.function = some n) (h3 : dictGet n reg.tools = none) :
    executeTool reg d = .ok (.str ("Function \x27" ++ n ++ "\x27 not found."), []) ∧
    execDecisions reg (d :: rest) = (execDecisions reg rest).map
      (fun st => ((n, Json.str ("Function \x27" ++ n ++ "\x27 not found.")) :: st.1,
                  Message.assistant (dumpDecision d) :: st.2.1, st.2.2)) := by
  have hexec : executeTool reg d =
      .ok (.str ("Function \x27" ++ n ++ "\x27 not found."), []) := by
    simp [executeTool, ToolRegistry.getCallable, h2, h3]
  refine ⟨hexec, ?_⟩
  cases hk : execDecisions reg rest with
  | error e => simp [execDecisions, execStep, h1, h2, hexec, hk, Except.map]
  | ok st => simp [execDecisions, execStep, h1, h2, hexec, hk, Except.map]

/-- C1 witness: the unregistered name `"absent"` in the concrete registry. -/
theorem claim_C1_witness :
    executeTool regW dMissing = .ok (.str "Function \x27absent\x27 not found.", []) ∧
    execDecisions regW (dMissing :: [dNoTool]) = (execDecisions regW [dNoTool]).map
      (fun st => (("absent", Json.str "Function \x27absent\x27 not found.") :: st.1,
                  Message.assistant (dumpDecision dMissing) :: st.2.1, st.2.2)) :=
  claim_C1_unregistered_not_found regW dMissing [dNoTool] "absent" rfl rfl rfl

/-- C2: for every tool decision whose resolved callable raises with message
`m`, `_execute_tool` returns exactly `"Error: m"`, the exception is
swallowed, and the loop continues with the remaining decisions. -/
theorem claim_C2_exception_to_string (reg : ToolRegistry) (d : Decision)
    (rest : List Decision) (n : String)
    (f : List (String × Json) → Except String Json) (m : String)
    (h1 : d.decision = some "tool") (h2 : d.function = some n)
    (h3 : reg.getCallable n = some (.callable f))
    (h4 : f (d.parameters.getD []) = .error m) :
    executeTool reg d = .ok (.str ("Error: " ++ m), [(n, d.parameters.getD [])]) ∧
    execDecisions reg (d :: rest) = (execDecisions reg rest).map
      (fun st => ((n, Json.str ("Error: " ++ m)) :: st.1,
                  Message.assistant (dumpDecision d) :: st.2.1,
                  (n, d.parameters.getD []) :: st.2.2)) := by
  have hexec : executeTool reg d =
      .ok (.str ("Error: " ++ m), [(n, d.parameters.getD [])]) := by
    simp [executeTool, h2, h3, h4]
  refine ⟨hexec, ?_⟩
  cases hk : execDecisions reg rest with
  | error e => simp [execDecisions, execStep, h1, h2, hexec, hk, Except.map]
  | ok st => simp [execDecisions, execStep, h1, h2, hexec, hk, Except.map]

/-- C2 witness: the raising tool `"bad"` with message `"boom"`. -/
theorem claim_C2_witness :
    executeTool regW dBoom = .ok (.str "Error: boom", [("bad", [("x", .num 1)])]) ∧
    execDecisions regW (dBoom :: [dNoTool]) = (execDecisions regW [dNoTool]).map
      (fun st => (("bad", Json.str "Error: boom") :: st.1,
                  Message.assistant (dumpDecision dBoom) :: st.2.1,
                  ("bad", [("x", Json.num 1)]) :: st.2.2)) :=
  claim_C2_exception_to_string regW dBoom [dNoTool] "bad" _ "boom" rfl rfl rfl rfl

/-- C5: for every decision with `decision != "tool"`, the loop invokes no
callable (the trace is unchanged), adds no tool-results entry, and appends
exactly one assistant message carrying the serialized decision. -/
theorem claim_C5_no_tool_one_message (reg : ToolRegistry) (d : Decision)
    (rest : List Decision) (h : ¬ d.decision = some "tool") :
    execDecisions reg (d :: rest) = (execDecisions reg rest).map
      (fun st => (st.1, Message.assistant (dumpDecision d) :: st.2.1, st.2.2)) := by
  cases hk : execDecisions reg rest with
  | error e => simp [execDecisions, execStep, h, hk, Except.map]
  | ok st => simp [execDecisions, execStep, h, hk, Except.map]

/-- C5 witness: the `no_tool` decision before an empty tail. -/
theorem claim_C5_witness :
    execDecisions regW (dNoTool :: []) = (execDecisions regW []).map
      (fun st => (st.1, Message.assistant (dumpDecision dNoTool) :: st.2.1, st.2.2)) :=
  claim_C5_no_tool_one_message regW dNoTool [] (by simp [dNoTool])

/-- C8: a tool decision whose name is registered but whose stored
`"function"` value is not callable also yields `"Function '<name>' not
found."`: the branch is decided by `callable()` on the looked-up value,
not by registry membership. -/
theorem claim_C8_noncallable_not_found (reg : ToolRegistry) (d : Decision)
    (n : String) (e : ToolEntry) (_h1 : d.decision = some "tool")
    (h2 : d.function = some n) (h3 : dictGet n reg.tools = some e)
    (h4 : e.function.isCallable = false) :
    executeTool reg d = .ok (.str ("Function \x27" ++ n ++ "\x27 not found."), []) := by
  cases hf : e.function with
  | callable f => rw [hf] at h4; simp [PyVal.isCallable] at h4
  | value j => simp [executeTool, ToolRegistry.getCallable, h2, h3, hf]

/-- C8 witness: the registered non-callable entry `"data"`. -/
theorem claim_C8_witness :
    executeTool regW dData = .ok (.str "Function \x27data\x27 not found.", []) :=
  claim_C8_noncallable_not_found regW dData "data"
    ⟨.value (.str "not a function"), "A non-callable entry.", []⟩ rfl rfl rfl rfl

/-- C9: a tool decision with no `"function"` key makes the run raise
`KeyError` outside the per-call handler: `_execute_tool` propagates the
error, the whole loop aborts regardless of the remaining decisions, and no
inline error result is produced. -/
theorem claim_C9_missing_function_key_aborts (reg : ToolRegistry) (d : Decision)
    (ser : String) (k : Except PyError ExecState) (rest : List Decision)
    (h1 : d.decision = some "tool") (h2 : d.function = none) :
    executeTool reg d = .error (.keyError "function") ∧
    execStep reg d ser k = .error (.keyError "function") ∧
    execDecisions reg (d :: rest) = .error (.keyError "function") := by
  have hexec : executeTool reg d = .error (.keyError "function") := by
    simp [executeTool, h2]
  exact ⟨hexec, by simp [execStep, h1, hexec], by simp [execDecisions, execStep, h1, hexec]⟩

/-- C9 witness: the keyless decision aborts even with work remaining. -/
theorem claim_C9_witness :
    executeTool regW dNoFunction = .error (.keyError "function") ∧
    execStep regW dNoFunction (dumpDecision dNoFunction) (execDecisions regW [dGood]) =
      .error (.keyError "function") ∧
    execDecisions regW (dNoFunction :: [dGood]) = .error (.keyError "function") :=
  claim_C9_missing_function_key_aborts regW dNoFunction (dumpDecision dNoFunction)
    (execDecisions regW [dGood]) [dGood] rfl rfl

/-- C10: a tool decision for a registered callable with no `"parameters"`
key does not fail: the missing key defaults to an empty dict, the callable
is invoked with zero keyword arguments, and the outcome is identical to the
same decision carrying an empty `parameters` object. -/
theorem claim_C10_missing_parameters_default (reg : ToolRegistry) (d : Decision)
    (n : String) (f : List (String × Json) → Except String Json)
    (h1 : d.function = some n) (h2 : d.parameters = none)
    (h3 : reg.getCallable n = some (.callable f)) :
    executeTool reg d = executeTool reg ⟨d.decision, d.reason, some n, some []⟩ ∧
    ∃ v, executeTool reg d = .ok (v, [(n, [])]) := by
  constructor
  · simp [executeTool, h1, h2]
  · cases hr : f [] with
    | ok r => exact ⟨r, by simp [executeTool, h1, h2, h3, hr]⟩
    | error m => exact ⟨.str ("Error: " ++ m), by simp [executeTool, h1, h2, h3, hr]⟩

/-- C10 witness: the parameterless decision for the succeeding tool. -/
theorem claim_C10_witness :
    executeTool regW dNoParams =
      executeTool regW ⟨dNoParams.decision, dNoParams.reason, some "good", some []⟩ ∧
    ∃ v, executeTool regW dNoParams = .ok (v, [("good", [])]) :=
  claim_C10_missing_parameters_default regW dNoParams "good" _ rfl rfl rfl

/-- Lookup through the prompt view agrees with lookup in the tools dict. -/
theorem dictGet_map_entry (n : String) : ∀ (l : List (String × ToolEntry)),
    dictGet n (l.map fun p => (p.1, (⟨p.2.description, p.2.parameters⟩ : DescEntry)))
      = (dictGet n l).map fun e => (⟨e.description, e.parameters⟩ : DescEntry)
  | [] => rfl
  | (k, v) :: rest => by
    by_cases hk : k = n
    · simp [dictGet, hk]
    · simp [dictGet, hk, dictGet_map_entry n rest]

/-- C6: `get_description_for_prompt()` has exactly the registered names as
keys, and each name maps to its stored description and parameter spec,
with the callable excluded from the returned view. -/
theorem claim_C6_description_view (reg : ToolRegistry) :
    reg.getDescriptionForPrompt.map Prod.fst = reg.tools.map Prod.fst ∧
    ∀ n e, dictGet n reg.tools = some e →
      dictGet n reg.getDescriptionForPrompt = some ⟨e.description, e.parameters⟩ := by
  constructor
  · simp [ToolRegistry.getDescriptionForPrompt]
  · intro n e he
    rw [ToolRegistry.getDescriptionForPrompt, dictGet_map_entry, he]
    rfl

/-- C6 witness: the concrete registry's view, and the `"bad"` entry. -/
theorem claim_C6_witness :
    regW.getDescriptionForPrompt.map Prod.fst = regW.tools.map Prod.fst ∧
    dictGet "bad" regW.getDescriptionForPrompt =
      some ⟨"A tool that raises.", [("x", "int - an argument.")]⟩ :=
  ⟨(claim_C6_description_view regW).1,
   (claim_C6_description_view regW).2 "bad"
     ⟨boomTool, "A tool that raises.", [("x", "int - an argument.")]⟩ rfl⟩

/-- C7: the synthesis input always contains the original user query and the
newline-joined tool summary, one line per collected pair in execution
order, each pairing the tool name with the JSON-serialized result; with
zero collected pairs the summary is the empty string. -/
theorem claim_C7_synthesis_contents (q : String) (trs : List (String × Json))
    (msgs : List Message) :
    Message.user ("User question: " ++ q) ∈ synthesisInput q trs msgs ∧
    Message.user ("Tool Results:\n" ++ String.intercalate "\n"
        (trs.map fun p => "- Tool `" ++ p.1 ++ "` returned: " ++ dumps p.2))
      ∈ synthesisInput q trs msgs ∧
    toolSummary [] = "" := by
  refine ⟨?_, ?_, rfl⟩ <;> simp [synthesisInput, toolSummary]

/-- C4: whenever the execution loop completes, the collected `(name,
result)` pairs are exactly the `decision == "tool"` subsequence of the
decisions in array order, and the invocation trace is the concatenation of
their invocations in the same order: strictly sequential, no reordering. -/
theorem claim_C4_sequential_order (reg : ToolRegistry) :
    ∀ (ds : List Decision) (trs : List (String × Json)) (msgs : List Message)
      (calls : List ToolCall),
      execDecisions reg ds = .ok (trs, msgs, calls) →
      trs = specToolPairs reg ds ∧ calls = specToolCalls reg ds := by
  intro ds
  induction ds with
  | nil =>
    intro trs msgs calls h
    simp only [execDecisions, Except.ok.injEq, Prod.mk.injEq] at h
    obtain ⟨h1, _h2, h3⟩ := h
    subst h1
    subst h3
    simp [specToolPairs, specToolCalls]
  | cons d rest ih =>
    intro trs msgs calls h
    simp only [execDecisions] at h
    by_cases hd : d.decision = some "tool"
    · simp only [execStep, hd, if_pos] at h
      cases hexec : executeTool reg d with
      | error e => rw [hexec] at h; simp at h
      | ok rc =>
        obtain ⟨r, cs⟩ := rc
        rw [hexec] at h
        cases hf : d.function with
        | none => rw [hf] at h; simp at h
        | some n =>
          rw [hf] at h
          cases hrest : execDecisions reg rest with
          | error e => rw [hrest] at h; simp at h
          | ok st =>
            obtain ⟨trs2, msgs2, calls2⟩ := st
            rw [hrest] at h
            simp only [Except.ok.injEq, Prod.mk.injEq] at h
            obtain ⟨h1, _h2, h3⟩ := h
            obtain ⟨ih1, ih2⟩ := ih trs2 msgs2 calls2 hrest
            subst h1
            subst h3
            constructor
            · have hs : specToolPairs reg (d :: rest) = (n, r) :: specToolPairs reg rest := by
                simp [specToolPairs, List.filter_cons, hd, hf, hexec]
              rw [hs, ih1]
            · have hs : specToolCalls reg (d :: rest) = cs ++ specToolCalls reg rest := by
                simp [specToolCalls, List.filter_cons, hd, hexec]
              rw [hs, ih2]
    · simp only [execStep, hd, if_neg, not_false_iff] at h
      cases hrest : execDecisions reg rest with
      | error e => rw [hrest] at h; simp at h
      | ok st =>
        obtain ⟨trs2, msgs2, calls2⟩ := st
        rw [hrest] at h
        simp only [Except.ok.injEq, Prod.mk.injEq] at h
        obtain ⟨h1, _h2, h3⟩ := h
        subst h1
        subst h3
        obtain ⟨ih1, ih2⟩ := ih trs2 msgs2 calls2 hrest
        constructor
        · have hs : specToolPairs reg (d :: rest) = specToolPairs reg rest := by
            simp [specToolPairs, List.filter_cons, hd]
          rw [hs]; exact ih1
        · have hs : specToolCalls reg (d :: rest) = specToolCalls reg rest := by
            simp [specToolCalls, List.filter_cons, hd]
          rw [hs]; exact ih2

/-- C4 witness: a concrete mixed run through the concrete registry. -/
theorem claim_C4_witness :
    specToolPairs regW [dGood, dNoTool, dMissing] =
      [("good", Json.str "ok"), ("absent", Json.str "Function \x27absent\x27 not found.")] ∧
    specToolCalls regW [dGood, dNoTool, dMissing] = [("good", [])] := by
  have h := claim_C4_sequential_order regW [dGood, dNoTool, dMissing] _ _ _ rfl
  exact ⟨h.1.symm, h.2.symm⟩

/-- C3 counterexample: the output `{}` is valid JSON that does not conform
to the declared schema (the required `tool_calls` key is absent), yet the
run does not abort: it proceeds to the Synthesis Phase with no tool
results. -/
theorem claim_C3_counterexample :
    dictGet "tool_calls" ([] : List (String × Json)) = none ∧
    runFromOutput ToolRegistry.init [] "q" (some (.obj [])) =
      .ok (synthesisInput "q" [] []) :=
  ⟨rfl, rfl⟩

/-- C3 (amended): output that is not valid JSON makes `json.loads` raise,
aborting the run with an uncaught error and no repair or retry path; but
valid JSON that lacks the required `tool_calls` key does not abort — the
key defaults to an empty array and the run proceeds to synthesis with no
tool results. -/
theorem claim_C3_invalid_json_fatal (reg : ToolRegistry) (pre : List Message)
    (q : String) :
    runFromOutput reg pre q none = .error .jsonDecodeError ∧
    runFromOutput reg pre q (some (.obj [])) = .ok (synthesisInput q [] pre) := by
  refine ⟨rfl, ?_⟩
  simp [runFromOutput, getToolCalls, iterToolCalls, execItems, dictGet]

end Agent
